import Mathlib

set_option maxRecDepth 8000
set_option maxHeartbeats 1000000

/-!
Verification development for rs_fr_lookup_v10.py: a shallow embedding of the
string heuristics, the extraction pipeline and the batch loop of the script,
together with theorems about the properties stated in its specification.

Python strings are modelled as Lean `String` (a list of unicode code points,
matching Python code-point semantics for length, slicing and comparison).
Characters are compared through `Char.toNat`.  Lower-casing is modelled on
the ASCII and Latin-1 letter ranges, which covers every character the
script ever compares case-insensitively.
-/

namespace RsFinder

/-! ### Python string primitives -/

/-- Python whitespace (recognized by str.strip, str.split and the regex
class backslash-s): ASCII whitespace, the separator controls 28-31,
NEL (133) and NBSP (160). -/
def pyWs (c : Char) : Bool :=
  c.toNat == 32 || c.toNat == 9 || c.toNat == 10 || c.toNat == 13 ||
  c.toNat == 11 || c.toNat == 12 || c.toNat == 28 || c.toNat == 29 ||
  c.toNat == 30 || c.toNat == 31 || c.toNat == 133 || c.toNat == 160

def ltrim (l : List Char) : List Char := l.dropWhile pyWs

/-- str.strip(): drop whitespace from both ends. -/
def stripList (l : List Char) : List Char :=
  ((ltrim l).reverse.dropWhile pyWs).reverse

def pyStrip (s : String) : String := ⟨stripList s.data⟩

/-- str.lower() on the ASCII and Latin-1 ranges (A-Z and the accented
uppercase letters 192-222 except the multiplication sign 215). -/
def pyLowerChar (c : Char) : Char :=
  if 65 ≤ c.toNat ∧ c.toNat ≤ 90 then Char.ofNat (c.toNat + 32)
  else if 192 ≤ c.toNat ∧ c.toNat ≤ 222 ∧ c.toNat ≠ 215 then Char.ofNat (c.toNat + 32)
  else c

def lowerStr (s : String) : String := ⟨s.data.map pyLowerChar⟩

def isAsciiDigit (c : Char) : Bool := 48 ≤ c.toNat && c.toNat ≤ 57

def isAsciiAlpha (c : Char) : Bool :=
  (65 ≤ c.toNat && c.toNat ≤ 90) || (97 ≤ c.toNat && c.toNat ≤ 122)

def isAsciiAlnum (c : Char) : Bool := isAsciiAlpha c || isAsciiDigit c

/-- The letter class `[A-Za-z 192-214 216-246 248-255]` used by the
regexes of the script (ASCII letters plus accented Latin-1 letters). -/
def alphaLatin (c : Char) : Bool :=
  isAsciiAlpha c || (192 ≤ c.toNat && c.toNat ≤ 214) ||
  (216 ≤ c.toNat && c.toNat ≤ 246) || (248 ≤ c.toNat && c.toNat ≤ 255)

/-- The punctuation class `[-_/.]` of heuristic_mpn_candidate. -/
def isPunctClass (c : Char) : Bool :=
  c.toNat == 45 || c.toNat == 95 || c.toNat == 47 || c.toNat == 46

/-- str.split() with no separator: words between whitespace runs,
empty words dropped. -/
def splitWsAux : List Char → List Char → List (List Char)
  | [], acc => if acc.isEmpty then [] else [acc.reverse]
  | c :: cs, acc =>
    if pyWs c then
      if acc.isEmpty then splitWsAux cs [] else acc.reverse :: splitWsAux cs []
    else splitWsAux cs (c :: acc)

def pySplitWs (s : String) : List String := (splitWsAux s.data []).map (fun l => ⟨l⟩)

/-- Does the list start with the pattern? -/
def beginsWith : List Char → List Char → Bool
  | [], _ => true
  | _ :: _, [] => false
  | p :: ps, c :: cs => decide (p = c) && beginsWith ps cs

/-- Is `pat` a contiguous sublist? (Python substring containment.) -/
def hasSub (pat : List Char) : List Char → Bool
  | [] => pat.isEmpty
  | c :: cs => beginsWith pat (c :: cs) || hasSub pat cs

/-- Python `pat in s`. -/
def containsSub (s pat : String) : Bool := hasSub pat.data s.data

/-- str.find: index of the first occurrence of `pat` in `s`, if any. -/
def pyFindAux (pat : List Char) : List Char → Nat → Option Nat
  | [], i => if pat.isEmpty then some i else none
  | c :: cs, i => if beginsWith pat (c :: cs) then some i else pyFindAux pat cs (i + 1)

def pyFind (s pat : String) : Option Nat := pyFindAux pat.data s.data 0

/-- candidate.replace(" ", ""): remove space characters (code 32 only). -/
def removeSpaces (s : String) : String := ⟨s.data.filter (fun c => c.toNat != 32)⟩

/-- Python slice s[l:r] with 0 ≤ l ≤ r clamped to the length. -/
def pySlice (s : String) (l r : Nat) : String := ⟨(s.data.drop l).take (r - l)⟩

/-- norm(): re.sub collapsing each whitespace run to one space, then strip.
The boolean argument records whether the previous character was whitespace. -/
def collapseWsAux : List Char → Bool → List Char
  | [], _ => []
  | c :: cs, prev =>
    if pyWs c then
      if prev then collapseWsAux cs true else ' ' :: collapseWsAux cs true
    else c :: collapseWsAux cs false

def pyNorm (t : String) : String := pyStrip ⟨collapseWsAux t.data false⟩

/-- Python str.isdigit restricted to ASCII digits (the script only ever
meets ASCII digit strings on this path). -/
def pyIsDigitStr (s : String) : Bool := !s.data.isEmpty && s.data.all isAsciiDigit

/-! ### The validators (lines 61-107 of rs_fr_lookup_v10.py) -/

def rejection_substrings : List String :=
  ["contains svhc", "cadmium", "lead", "cas no", "ah", " v ", " volt", "volts",
   "amp", "capacity", "rechargeable", "watt", "battery", "description"]

def looks_like_brand (s : String) : Bool :=
  if s = "" then false
  else
    (pyStrip s).data.any alphaLatin && decide (1 < (pyStrip s).length)

def is_valid_mpn_from_field (candidate : String) (rs_pn_hint : String) : Bool :=
  if candidate = "" then false
  else if 6 < (pySplitWs (pyStrip candidate)).length then false
  else if rejection_substrings.any
      (fun bad => containsSub (lowerStr (pyStrip candidate)) bad) then false
  else if !((pyStrip candidate).data.any isAsciiAlnum) then false
  else if rs_pn_hint ≠ "" ∧
      lowerStr (removeSpaces (pyStrip candidate)) = lowerStr rs_pn_hint then false
  else true

def heuristic_mpn_candidate (tok : String) (rs_pn_hint : String) : Bool :=
  if tok = "" then false
  else if 4 < (pySplitWs (pyStrip tok)).length then false
  else if containsSub (pyStrip tok) ":" then false
  else if !((pyStrip tok).data.any isAsciiAlnum) then false
  else if (pyStrip tok).data.all isAsciiDigit ∧ 2 ≤ (pyStrip tok).length ∧
      (pyStrip tok).length ≤ 20 then
    if rs_pn_hint ≠ "" ∧ pyStrip tok = rs_pn_hint then false else true
  else if ((pyStrip tok).data.any alphaLatin && (pyStrip tok).data.any isAsciiDigit) ||
      ((pyStrip tok).data.any isPunctClass &&
        ((pyStrip tok).data.any alphaLatin || (pyStrip tok).data.any isAsciiDigit)) then true
  else if (pyStrip tok).data.any alphaLatin ∧ 3 ≤ (pyStrip tok).length ∧
      (pySplitWs (pyStrip tok)).length = 1 then true
  else false

/-! ### Token split and sanitization (re.split on [ws , ; /]+, lines 171-176
and 322-328 of the source) -/

def sepChar (c : Char) : Bool :=
  pyWs c || c.toNat == 44 || c.toNat == 59 || c.toNat == 47

/-- re.split(r"[ws,;/]+", s): maximal separator runs split the string;
a leading or trailing run contributes an empty token, as in Python. -/
def splitSepAux : List Char → List Char → Bool → List (List Char)
  | [], acc, _ => [acc.reverse]
  | c :: cs, acc, prevSep =>
    if sepChar c then
      if prevSep then splitSepAux cs [] true
      else acc.reverse :: splitSepAux cs [] true
    else splitSepAux cs (c :: acc) false

def pySplitSep (s : String) : List String := (splitSepAux s.data [] false).map (fun l => ⟨l⟩)

/-- The for/break loop accepting the first token that passes the loose
heuristic (lines 172-174 / 324-326). -/
def firstHeurTok (rs : String) : List String → Option String
  | [] => none
  | t :: ts => if heuristic_mpn_candidate t rs then some t else firstHeurTok rs ts

/-- The for/else retry of an invalid MPN: first heuristic token, else
the empty string (MPN discarded). -/
def sanitize_mpn (m rs : String) : String :=
  match firstHeurTok rs (pySplitSep m) with
  | some t => t
  | none => ""

/-- Lines 322-328: `mpn_clean = mpn_s` then the split-retry when non-empty
and strictly invalid. -/
def mpn_clean_step (m rs : String) : String :=
  if m ≠ "" ∧ is_valid_mpn_from_field m rs = false then sanitize_mpn m rs else m

/-! ### The batch loop (load_already_done and main, lines 362-411).
File and network I/O are abstracted: the output CSV is a list of rows, the
per-identifier lookup is a function that either returns the four result
fields of fetch_rs_info or raises an exception carrying a message. -/

structure OutRow where
  rs_pn : String
  mpn : String
  brand : String
  url : String
  status : String
deriving DecidableEq, Repr

abbrev Lookup := String → Except String (String × String × String × String)

/-- Lines 396-402: one row per processed identifier; the umbrella except
turns an exception into empty fields and an EXCEPTION status. -/
def lookupRow (lookup : Lookup) (rs : String) : OutRow :=
  match lookup rs with
  | .ok (m, b, u, st) => ⟨rs, m, b, u, st⟩
  | .error e => ⟨rs, "", "", "", "EXCEPTION:" ++ e⟩

/-- Lines 362-372: the set of RS_PN values already present in the output
(pandas reads them back and strips them). -/
def load_already_done (out : List OutRow) : List String :=
  out.map (fun r => pyStrip r.rs_pn)

/-- The for-loop of main (lines 389-409): `already` is computed before the
loop and never changes while rows are appended. -/
def mainLoop (lookup : Lookup) (already : List String) :
    List String → List OutRow → List OutRow
  | [], out => out
  | rs :: rest, out =>
    if rs = "" then mainLoop lookup already rest out
    else if rs ∈ already then mainLoop lookup already rest out
    else mainLoop lookup already rest (out ++ [lookupRow lookup rs])

/-- main (lines 375-409): strip every input identifier, load the resume set
once, then run the loop appending to the output file. -/
def main (lookup : Lookup) (input : List String) (out0 : List OutRow) : List OutRow :=
  mainLoop lookup (load_already_done out0) (input.map pyStrip) out0

/-- The identifiers of a run that actually get processed: non-blank and not
in the resume set loaded at start. -/
def qualifying (input : List String) (out0 : List OutRow) : List String :=
  (input.map pyStrip).filter (fun rs => decide (rs ≠ "" ∧ rs ∉ load_already_done out0))

/-- Number of rows of the output carrying a given RS_PN key. -/
def countKey (k : String) (out : List OutRow) : Nat :=
  (out.filter (fun r => decide (r.rs_pn = k))).length

/-- A concrete lookup that never raises, for evaluating the batch loop. -/
def okLookup : Lookup := fun _ => .ok ("", "", "", "S")

/-- A concrete lookup raising on the identifier A, for evaluating the
exception path of the batch loop. -/
def errLookup : Lookup := fun rs => if rs = "A" then .error "boom" else .ok ("m", "b", "u", "OK")

/-- The specification wording of looks_like_brand: after stripping the string
is non-empty, contains an alphabetic character (including accented Latin
letters) and has length greater than 1. -/
def brandSpecClaim (s : String) : Bool :=
  decide (pyStrip s ≠ "") && (pyStrip s).data.any alphaLatin &&
    decide (1 < (pyStrip s).length)

/-! ### A small backtracking regex engine.

The raw-scan extractor applies five fixed regular expressions to text
snippets.  Each of them is a sequence of literals and character-class
repetitions with a trailing capture, so patterns are modelled as lists of
items and matched by a continuation-passing backtracking matcher with the
Python preference order: greedy repetitions try the longest count first,
lazy ones the shortest, and re.search returns the match at the leftmost
feasible start position. -/

inductive RItem where
  | lit (ci : Bool) (s : List Char)
  | cls (lo : Nat) (hi : Option Nat) (lzy : Bool) (p : Char → Bool)

/-- Character comparison, optionally case-insensitive (re.I). -/
def ciEq (ci : Bool) (a b : Char) : Bool :=
  if ci then decide (pyLowerChar a = pyLowerChar b) else decide (a = b)

/-- Match a literal, returning the rest of the input. -/
def litMatchAux (ci : Bool) : List Char → List Char → Option (List Char)
  | [], s => some s
  | _ :: _, [] => none
  | p :: ps, c :: cs => if ciEq ci p c then litMatchAux ci ps cs else none

/-- Length of the maximal prefix run satisfying the class. -/
def runLen (p : Char → Bool) : List Char → Nat
  | [] => 0
  | c :: cs => if p c then runLen p cs + 1 else 0

/-- Try the repetition counts in preference order, backtracking through the
continuation. -/
def tryCounts (f : Nat → Option α) : List Nat → Option α
  | [] => none
  | n :: ns =>
    match f n with
    | some r => some r
    | none => tryCounts f ns

/-- The matcher of one item, in continuation-passing style. -/
def itemMatcher (it : RItem) (k : List Char → Option α) : List Char → Option α :=
  match it with
  | .lit ci pat => fun s =>
    match litMatchAux ci pat s with
    | some s2 => k s2
    | none => none
  | .cls lo hi lzy p => fun s =>
    let m := min (runLen p s) (hi.getD (runLen p s))
    let counts := if lzy then List.range' lo (m + 1 - lo)
      else (List.range' lo (m + 1 - lo)).reverse
    tryCounts (fun n => k (s.drop n)) counts

/-- The matcher of an item sequence. -/
def runItems (its : List RItem) (k : List Char → Option α) : List Char → Option α :=
  match its with
  | [] => k
  | it :: rest => itemMatcher it (runItems rest k)

/-- Match the pattern `pre` then `cap` at the start of `s`, returning the
text consumed by `cap` (the capture group of the pattern). -/
def matchAt (pre cap : List RItem) (s : List Char) : Option (List Char) :=
  runItems pre (fun s1 => runItems cap
    (fun s2 => some (s1.take (s1.length - s2.length))) s1) s

/-- re.search: the match at the leftmost feasible start position. -/
def reSearch (pre cap : List RItem) : List Char → Option (List Char)
  | [] => matchAt pre cap []
  | c :: cs =>
    match matchAt pre cap (c :: cs) with
    | some r => some r
    | none => reSearch pre cap cs

def reSearchStr (pre cap : List RItem) (s : String) : Option String :=
  (reSearch pre cap s.data).map (fun l => ⟨l⟩)

/-! The five regexes of aggressive_search_scan (lines 211-235). -/

def isQuote (c : Char) : Bool := c.toNat == 34 || c.toNat == 39

def notGt (c : Char) : Bool := c.toNat != 62

def notLt (c : Char) : Bool := c.toNat != 60

def anyChar (_ : Char) : Bool := true

def isDash (c : Char) : Bool := c.toNat == 45

/-- The class of the product-link regex: any character except a double or
single quote, whitespace, a greater-than sign or a backslash. -/
def rawAllowed (c : Char) : Bool :=
  !(c.toNat == 34 || c.toNat == 39 || pyWs c || c.toNat == 62 || c.toNat == 92)

/-- data-testid=["]brand-link["][^>]*> .*? <span[^>]*> capturing [^<]x1-80,
with flags re.I and re.S. -/
def brandPatternPre : List RItem :=
  [.lit true ("data-testid=".data), .cls 1 (some 1) false isQuote,
   .lit true ("brand-link".data), .cls 1 (some 1) false isQuote,
   .cls 0 none false notGt, .lit true (">".data),
   .cls 0 none true anyChar, .lit true ("<span".data),
   .cls 0 none false notGt, .lit true (">".data)]

def snippetCap : List RItem := [.cls 1 (some 80) false notLt]

/-- dd[^>]*data-testid=["]mpn-desktop["][^>]*> capturing [^<]x1-80. -/
def mpnPattern1Pre : List RItem :=
  [.lit true ("dd".data), .cls 0 none false notGt, .lit true ("data-testid=".data),
   .cls 1 (some 1) false isQuote, .lit true ("mpn-desktop".data),
   .cls 1 (some 1) false isQuote, .cls 0 none false notGt, .lit true (">".data)]

/-- dt[^>]*data-testid=["]mpn-desktop["][^>]*>[^<]*</dt> ws* <dd[^>]*>
capturing [^<]x1-80. -/
def mpnPattern2Pre : List RItem :=
  [.lit true ("dt".data), .cls 0 none false notGt, .lit true ("data-testid=".data),
   .cls 1 (some 1) false isQuote, .lit true ("mpn-desktop".data),
   .cls 1 (some 1) false isQuote, .cls 0 none false notGt, .lit true (">".data),
   .cls 0 none false notLt, .lit true ("</dt>".data), .cls 0 none false pyWs,
   .lit true ("<dd".data), .cls 0 none false notGt, .lit true (">".data)]

/-- rs ws* pro with flag re.I. -/
def rsProPattern : List RItem :=
  [.lit true ("rs".data), .cls 0 none false pyWs, .lit true ("pro".data)]

def hasRsPro (s : String) : Bool := (reSearch rsProPattern [] s.data).isSome

/-- digit x2-4 - digit x2-4 -? digit x0-4, the whole match captured. -/
def distPatternCap : List RItem :=
  [.cls 2 (some 4) false isAsciiDigit, .lit false ("-".data),
   .cls 2 (some 4) false isAsciiDigit, .cls 0 (some 1) false isDash,
   .cls 0 (some 4) false isAsciiDigit]

/-! ### aggressive_search_scan (lines 209-243) -/

/-- re.findall of the product-link pattern /web/p/ followed by a non-empty
maximal run of allowed characters: leftmost, non-overlapping, scanning
resumes after each match.  The fuel argument is the remaining input length,
which strictly bounds the recursion. -/
def findWebPAux : Nat → List Char → List (List Char)
  | 0, _ => []
  | _, [] => []
  | fuel + 1, c :: cs =>
    if beginsWith ("/web/p/".data) (c :: cs) then
      let rest := (c :: cs).drop 7
      let run := rest.takeWhile rawAllowed
      if run.isEmpty then findWebPAux fuel cs
      else ("/web/p/".data ++ run) :: findWebPAux fuel (rest.drop run.length)
    else findWebPAux fuel cs

def findWebP (raw : String) : List (List Char) := findWebPAux raw.data.length raw.data

/-- urllib.parse.urljoin("https://fr.rs-online.com", href) for the href
shapes arising here (protocol-relative, absolute-path or bare relative). -/
def pyUrljoin (href : String) : String :=
  if beginsWith ("//".data) href.data then "https:" ++ href
  else if beginsWith ("/".data) href.data then "https://fr.rs-online.com" ++ href
  else "https://fr.rs-online.com/" ++ href

/-- The 800-character window each side of the first occurrence of the match
in the document (lines 216-218; str.find yields -1 when absent, clamped by
the max and min of the slice bounds). -/
def extractRawSnippet (raw : String) (m : List Char) : String :=
  let idx : Int := match pyFind raw ⟨m⟩ with | some n => (n : Int) | none => -1
  pySlice raw (max 0 (idx - 800)).toNat (min (raw.length : Int) (idx + 800)).toNat

/-- Lines 219-221: the brand snippet regex. -/
def extractRawBrand (snippet : String) : String :=
  match reSearchStr brandPatternPre snippetCap snippet with
  | some g => pyStrip g
  | none => ""

/-- Lines 222-233: the MPN snippet regexes and the split-token retry of an
invalid candidate (a loop identical to sanitize_mpn: first passing token,
else the empty string). -/
def extractRawMpn0 (rs snippet : String) : String :=
  match (match reSearchStr mpnPattern1Pre snippetCap snippet with
         | some g => some g
         | none => reSearchStr mpnPattern2Pre snippetCap snippet) with
  | some g =>
    if is_valid_mpn_from_field (pyStrip g) rs then pyStrip g
    else sanitize_mpn (pyStrip g) rs
  | none => ""

/-- Lines 234-239: the secondary numeric extraction behind an in-house
brand signal. -/
def extractRawDist (rs snippet brand mpn0 : String) : String :=
  if mpn0 = "" ∧ ((brand ≠ "" ∧ containsSub (lowerStr brand) "rs" = true ∧
      containsSub (lowerStr brand) "pro" = true) ∨ hasRsPro snippet = true) then
    match reSearchStr [] distPatternCap snippet with
    | some g => if is_valid_mpn_from_field (pyStrip g) rs then pyStrip g else mpn0
    | none => mpn0
  else mpn0

/-- The window extraction around one raw match (lines 215-239). -/
def extractRaw (raw rs : String) (m : List Char) : String × String :=
  let snippet := extractRawSnippet raw m
  let brand := extractRawBrand snippet
  (brand, extractRawDist rs snippet brand (extractRawMpn0 rs snippet))

/-- The for-loop over the raw matches: the first match containing the RS_PN
whose window extraction yields a brand or an MPN wins. -/
def scanLoop (raw rs : String) : List (List Char) → Option (String × String × String)
  | [] => none
  | m :: ms =>
    if containsSub ⟨m⟩ rs = true then
      let bm := extractRaw raw rs m
      if bm.1 ≠ "" ∨ bm.2 ≠ "" then some (pyUrljoin ⟨m⟩, bm.1, bm.2)
      else scanLoop raw rs ms
    else scanLoop raw rs ms

def aggressive_search_scan (search_html rs_pn : String) :
    Option String × String × String × String :=
  match findWebP search_html with
  | [] => (none, "", "", "NO_RAW_LINKS")
  | m0 :: ms =>
    match scanLoop search_html rs_pn (m0 :: ms) with
    | some (link, brand, mpn) => (some link, brand, mpn, "OK(raw-snippet)")
    | none => (some (pyUrljoin ⟨m0⟩), "", "", "OK(raw-first)")

/-- Specification view of one loop iteration: the hit produced by a match
that contains the RS_PN and extracts at least one non-empty field. -/
def rawHit (raw rs : String) (m : List Char) : Option (String × String × String) :=
  if containsSub ⟨m⟩ rs = true then
    let bm := extractRaw raw rs m
    if bm.1 ≠ "" ∨ bm.2 ≠ "" then some (pyUrljoin ⟨m⟩, bm.1, bm.2) else none
  else none

/-! ### The document model.

BeautifulSoup itself is an external collaborator; the script only navigates
the tree it returns.  A parsed document is a tree of element and text
nodes; a position inside the document is a path of child indices, so that
parent and sibling navigation are defined. -/

inductive Node where
  | text (s : String)
  | elem (name : String) (attrs : List (String × String)) (children : List Node)

def nodeName : Node → String
  | .text _ => ""
  | .elem nm _ _ => nm

def isElem : Node → Bool
  | .text _ => false
  | .elem _ _ _ => true

def nodeAttr : Node → String → Option String
  | .text _, _ => none
  | .elem _ attrs _, key => (attrs.find? (fun kv => decide (kv.1 = key))).map (fun kv => kv.2)

def hasAttrVal (n : Node) (key v : String) : Bool :=
  match nodeAttr n key with
  | some w => decide (w = v)
  | none => false

mutual
def nodeStrings : Node → List String
  | .text s => [s]
  | .elem _ _ cs => nodeStringsList cs
def nodeStringsList : List Node → List String
  | [] => []
  | c :: cs => nodeStrings c ++ nodeStringsList cs
end

/-- get_text(separator, strip=True): the stripped non-empty descendant
strings joined by the separator (the script always passes strip=True). -/
def pyGetText (sep : String) (n : Node) : String :=
  String.intercalate sep (((nodeStrings n).map pyStrip).filter (fun t => decide (t ≠ "")))

/-- The node at a path of child indices. -/
def getAt : List Nat → Node → Option Node
  | [], n => some n
  | _ :: _, .text _ => none
  | i :: p, .elem _ _ cs =>
    match cs.get? i with
    | some c => getAt p c
    | none => none

/-! Paths of all descendants satisfying the predicate, in document order
(the root itself is not considered, as in BeautifulSoup find and find_all). -/
mutual
def findAllPaths (pred : Node → Bool) : Node → List (List Nat)
  | .text _ => []
  | .elem _ _ cs => findAllPathsList pred cs 0
def findAllPathsList (pred : Node → Bool) : List Node → Nat → List (List Nat)
  | [], _ => []
  | c :: cs, i =>
    ((if pred c then [[i]] else []) ++ (findAllPaths pred c).map (fun p => i :: p)) ++
      findAllPathsList pred cs (i + 1)
end

/-- find: the first matching descendant, in document order. -/
def findPath (pred : Node → Bool) (n : Node) : Option (List Nat) :=
  (findAllPaths pred n).head?

def findNode (pred : Node → Bool) (n : Node) : Option Node :=
  match findPath pred n with
  | some p => getAt p n
  | none => none

def parentPath (p : List Nat) : Option (List Nat) :=
  match p with
  | [] => none
  | _ :: _ => some p.dropLast

/-- find_next_sibling: the first following sibling tag satisfying the
predicate; text siblings never match, as in BeautifulSoup. -/
def nextSibling (root : Node) (p : List Nat) (pred : Node → Bool) : Option Node :=
  match p.getLast? with
  | none => none
  | some i =>
    match getAt p.dropLast root with
    | some (.elem _ _ cs) => (cs.drop (i + 1)).find? (fun c => isElem c && pred c)
    | _ => none

/-! ### extract_distrelec_from_container (lines 110-126).
The script only ever passes a tag (never None), so the initial truthiness
test of the source is vacuous here. -/

def ddDistrelecPred (n : Node) : Bool :=
  decide (nodeName n = "dd") && hasAttrVal n "data-testid" "distrelec-desktop"

def dtDistrelecPred (n : Node) : Bool :=
  decide (nodeName n = "dt") && hasAttrVal n "data-testid" "distrelec-desktop"

def ddNamePred (n : Node) : Bool := decide (nodeName n = "dd")

/-- The loop over all dt descendants (lines 121-125): the first dt whose
text mentions distrelec and whose next dd sibling has non-empty text. -/
def distrelecDtLoop (container : Node) : List (List Nat) → String
  | [] => ""
  | p :: ps =>
    match getAt p container with
    | some dt =>
      if containsSub (lowerStr (pyGetText " " dt)) "distrelec" = true then
        match nextSibling container p ddNamePred with
        | some nxt =>
          if pyGetText "" nxt ≠ "" then pyNorm (pyGetText " " nxt)
          else distrelecDtLoop container ps
        | none => distrelecDtLoop container ps
      else distrelecDtLoop container ps
    | none => distrelecDtLoop container ps

def extract_distrelec_step2 (container : Node) : String :=
  match findPath dtDistrelecPred container with
  | some p =>
    match nextSibling container p ddNamePred with
    | some nxt =>
      if pyGetText "" nxt ≠ "" then pyNorm (pyGetText " " nxt)
      else distrelecDtLoop container
        (findAllPaths (fun n => decide (nodeName n = "dt")) container)
    | none => distrelecDtLoop container
        (findAllPaths (fun n => decide (nodeName n = "dt")) container)
  | none => distrelecDtLoop container
      (findAllPaths (fun n => decide (nodeName n = "dt")) container)

def extract_distrelec_from_container (container : Node) : String :=
  match findNode ddDistrelecPred container with
  | some dd =>
    if pyGetText "" dd ≠ "" then pyNorm (pyGetText " " dd)
    else extract_distrelec_step2 container
  | none => extract_distrelec_step2 container

/-! ### Shared field extraction pieces of the parsers -/

def brandLinkPred (n : Node) : Bool :=
  decide (nodeName n = "a") && hasAttrVal n "data-testid" "brand-link"

def spanPred (n : Node) : Bool := decide (nodeName n = "span")

def ddMpnPred (n : Node) : Bool :=
  decide (nodeName n = "dd") && hasAttrVal n "data-testid" "mpn-desktop"

/-- brand_a with an optional span child (lines 148-152, 183-187, 249-251). -/
def brandFromContainer (container : Node) : String :=
  match findNode brandLinkPred container with
  | some brand_a =>
    match findNode spanPred brand_a with
    | some span => pyNorm (pyGetText "" span)
    | none => pyNorm (pyGetText " " brand_a)
  | none => ""

/-- The dt lookup of the MPN label: by data-testid first, then by the
French label text (two find calls joined by `or` in the source). -/
def findDtMpn (container : Node) : Option (List Nat) :=
  match findPath (fun n => decide (nodeName n = "dt") &&
      hasAttrVal n "data-testid" "mpn-desktop") container with
  | some p => some p
  | none => findPath (fun n => decide (nodeName n = "dt") &&
      containsSub (lowerStr (pyGetText " " n)) "référence fabricant") container

/-- dt/dd pair fallback of the search card (lines 160-166): only a strictly
valid candidate is kept. -/
def cardMpnDtBranch (container : Node) (rs : String) : String :=
  match findDtMpn container with
  | some p =>
    match nextSibling container p ddNamePred with
    | some nxt =>
      if pyGetText "" nxt ≠ "" then
        if is_valid_mpn_from_field (pyNorm (pyGetText " " nxt)) rs then
          pyNorm (pyGetText " " nxt)
        else ""
      else ""
    | none => ""
  | none => ""

/-- MPN of a search card before the in-house-brand and sanitize steps
(lines 153-166). -/
def cardMpnRaw (container : Node) (rs : String) : String :=
  match findNode ddMpnPred container with
  | some ddmpn =>
    if pyGetText "" ddmpn ≠ "" then
      if is_valid_mpn_from_field (pyNorm (pyGetText " " ddmpn)) rs then
        pyNorm (pyGetText " " ddmpn)
      else ""
    else cardMpnDtBranch container rs
  | none => cardMpnDtBranch container rs

/-- In-house-brand substitution (lines 167-170, 194-197, 276-279): when no
MPN was found and the brand is the RS PRO store brand, a strictly valid
distrelec cross-reference value replaces the MPN. -/
def rsProDistStep (container : Node) (brand mpn rs : String) : String :=
  if mpn = "" ∧ brand ≠ "" ∧ containsSub (lowerStr brand) "rs" = true ∧
      containsSub (lowerStr brand) "pro" = true then
    if extract_distrelec_from_container container ≠ "" ∧
        is_valid_mpn_from_field (extract_distrelec_from_container container) rs = true then
      extract_distrelec_from_container container
    else mpn
  else mpn

/-- The acceptance guard used at every return of extracted fields
(lines 177, 204, 313, 321, 338). -/
def fieldsOk (brand mpn rs : String) : Bool :=
  (decide (brand ≠ "") && looks_like_brand brand) ||
  (decide (mpn ≠ "") && (is_valid_mpn_from_field mpn rs || heuristic_mpn_candidate mpn rs))

/-- Brand and MPN of one card container (lines 148-176). -/
def extractCardFields (container : Node) (rs : String) : String × String :=
  let brand := brandFromContainer container
  let mpn2 := rsProDistStep container brand (cardMpnRaw container rs) rs
  (brand, mpn_clean_step mpn2 rs)

/-- Brand and MPN of the anchor sibling fallback (lines 181-203): same as a
card but without the dt/dd pair branch. -/
def extractSiblingFields (sib : Node) (rs : String) : String × String :=
  let brand := brandFromContainer sib
  let mpn1 :=
    match findNode ddMpnPred sib with
    | some ddmpn =>
      if pyGetText "" ddmpn ≠ "" then
        if is_valid_mpn_from_field (pyNorm (pyGetText " " ddmpn)) rs then
          pyNorm (pyGetText " " ddmpn)
        else ""
      else ""
    | none => ""
  let mpn2 := rsProDistStep sib brand mpn1 rs
  (brand, mpn_clean_step mpn2 rs)

/-! ### parse_search_page_for_fields (lines 129-206) -/

def anchorPred (n : Node) : Bool :=
  decide (nodeName n = "a") && (nodeAttr n "href").isSome

structure Cand where
  path : List Nat
  url : String
  score : Nat

/-- Candidate product links: every anchor whose href mentions /web/p/,
scored 11 when the RS_PN occurs in the href or the anchor text, 1
otherwise (lines 132-138). -/
def buildCands (soup : Node) (rs : String) : List Cand :=
  (findAllPaths anchorPred soup).filterMap (fun p =>
    match getAt p soup with
    | some a =>
      match nodeAttr a "href" with
      | some href =>
        if containsSub href "/web/p/" = true then
          some ⟨p,
            if beginsWith ("http".data) href.data then href else pyUrljoin href,
            1 + (if containsSub href rs = true ∨ containsSub (pyGetText " " a) rs = true
              then 10 else 0)⟩
        else none
      | none => none
    | none => none)

/-- list.sort(key=score, reverse=True) is stable, and only the scores 11
and 1 occur, so the sorted order is: the 11-scored candidates in original
order, then the 1-scored ones in original order. -/
def sortCands (cs : List Cand) : List Cand :=
  cs.filter (fun c => decide (11 ≤ c.score)) ++ cs.filter (fun c => decide (c.score < 11))

def cardNames : List String := ["article", "li", "div"]

/-- The ancestor walk of one candidate (lines 144-179): up to four levels,
stopping at a missing parent, extracting fields at article/li/div nodes. -/
def walkCard (soup : Node) (rs url : String) :
    Nat → Option (List Nat) → Option (String × String × String × String)
  | 0, _ => none
  | _ + 1, none => none
  | fuel + 1, some p =>
    match getAt p soup with
    | none => none
    | some container =>
      if nodeName container ∈ cardNames then
        let bm := extractCardFields container rs
        if fieldsOk bm.1 bm.2 rs then some (url, bm.1, bm.2, "OK(search-card)")
        else walkCard soup rs url fuel (parentPath p)
      else walkCard soup rs url fuel (parentPath p)

/-- The loop over the sorted candidates (lines 143-205): a card hit wins,
otherwise the sibling fallback of the same anchor, otherwise the next
candidate. -/
def candLoop (soup : Node) (rs : String) :
    List Cand → Option (String × String × String × String)
  | [] => none
  | c :: cs =>
    match walkCard soup rs c.url 4 (some c.path) with
    | some r => some r
    | none =>
      match nextSibling soup c.path (fun _ => true) with
      | some sib =>
        let bm := extractSiblingFields sib rs
        if fieldsOk bm.1 bm.2 rs then some (c.url, bm.1, bm.2, "OK(search-sibling)")
        else candLoop soup rs cs
      | none => candLoop soup rs cs

def parse_search_page_for_fields (soup : Node) (rs_pn : String) :
    Option String × String × String × String :=
  match sortCands (buildCands soup rs_pn) with
  | [] => (none, "", "", "SEARCH_NO_PRODUCT_LINK")
  | c0 :: cs =>
    match candLoop soup rs_pn (c0 :: cs) with
    | some (url, brand, mpn, st) => (some url, brand, mpn, st)
    | none => (some c0.url, "", "", "OK_FOUND_anchor_no_card_fields")

/-! ### parse_product_page_for_fields (lines 246-280) -/

/-- Lines 260-264 and 271-275: a strictly valid candidate is kept, and so
is an all-digit candidate different from the hint. -/
def productCandMpn (candidate rs_pn_hint : String) : String :=
  if is_valid_mpn_from_field candidate rs_pn_hint then candidate
  else if pyIsDigitStr candidate = true ∧ (rs_pn_hint = "" ∨ candidate ≠ rs_pn_hint) then
    candidate
  else ""

def productDtMpn (soup : Node) (rs_pn_hint : String) : String :=
  match findDtMpn soup with
  | some p =>
    match nextSibling soup p ddNamePred with
    | some nxt =>
      if pyGetText "" nxt ≠ "" then productCandMpn (pyNorm (pyGetText " " nxt)) rs_pn_hint
      else ""
    | none => ""
  | none => ""

def parse_product_page_for_fields (soup : Node) (rs_pn_hint : String) : String × String :=
  let brand1 :=
    match findNode brandLinkPred soup with
    | some a_brand =>
      if pyGetText "" a_brand ≠ "" then
        match findNode spanPred a_brand with
        | some span => pyNorm (pyGetText "" span)
        | none => pyNorm (pyGetText " " a_brand)
      else ""
    | none => ""
  let brand :=
    if brand1 = "" then
      match findNode (fun n => decide (nodeName n = "dd") &&
          hasAttrVal n "data-testid" "brand-desktop") soup with
      | some dd_brand =>
        match findNode spanPred dd_brand with
        | some sp => pyNorm (pyGetText "" sp)
        | none => pyNorm (pyGetText " " dd_brand)
      | none => brand1
    else brand1
  let mpn1 :=
    match findNode ddMpnPred soup with
    | some ddmpn =>
      if pyGetText "" ddmpn ≠ "" then productCandMpn (pyNorm (pyGetText " " ddmpn)) rs_pn_hint
      else productDtMpn soup rs_pn_hint
    | none => productDtMpn soup rs_pn_hint
  (rsProDistStep soup brand mpn1 rs_pn_hint, brand)

/-! ### The network layer and fetch_rs_info (lines 283-341).
safe_get either returns a response (after its bounded retries) or re-raises
the last exception; a response body carries both the raw text and the tree
BeautifulSoup builds from it, the two components unconstrained, which
over-approximates every real parser. -/

structure Page where
  raw : String
  dom : Node

structure Resp where
  status_code : Nat
  text : Page

abbrev Net := String → Except String Resp

def hexDigitChar (n : Nat) : Char :=
  if n < 10 then Char.ofNat (48 + n) else Char.ofNat (55 + n)

/-- UTF-8 bytes of one code point. -/
def utf8Bytes (n : Nat) : List Nat :=
  if n < 128 then [n]
  else if n < 2048 then [192 + n / 64, 128 + n % 64]
  else if n < 65536 then [224 + n / 4096, 128 + (n / 64) % 64, 128 + n % 64]
  else [240 + n / 262144, 128 + (n / 4096) % 64, 128 + (n / 64) % 64, 128 + n % 64]

/-- urllib.parse.quote_plus: ASCII letters, digits and _ . - ~ kept, a
space turned into +, every other byte percent-encoded. -/
def quotePlusChar (c : Char) : List Char :=
  if isAsciiAlnum c = true ∨ c.toNat = 95 ∨ c.toNat = 46 ∨ c.toNat = 45 ∨ c.toNat = 126 then
    [c]
  else if c.toNat = 32 then [Char.ofNat 43]
  else (utf8Bytes c.toNat).flatMap
    (fun b => [Char.ofNat 37, hexDigitChar (b / 16), hexDigitChar (b % 16)])

def quote_plus (s : String) : String := ⟨s.data.flatMap quotePlusChar⟩

/-- Lines 296-302: the aggressive fallback applied to the raw search text
(the failed-page snapshot of line 301 is diagnostic I/O and not modelled). -/
def aggStep (raw rs_pn : String) : Option String × String × String × String :=
  match aggressive_search_scan raw rs_pn with
  | (some pl2, b2, m2, st2) =>
    if b2 ≠ "" ∨ m2 ≠ "" then (some pl2, b2, m2, st2) else (some pl2, "", "", st2)
  | (none, _, _, _) => (none, "", "", "SEARCH_NO_PRODUCT_LINK")

def search_rs_for_part_combined (net : Net) (rs_pn : String) :
    Option String × String × String × String :=
  match net ("https://fr.rs-online.com/web/c/?searchTerm=" ++ quote_plus rs_pn) with
  | .error e => (none, "", "", "SEARCH_ERROR:" ++ e)
  | .ok r =>
    if r.status_code ≠ 200 then (none, "", "", "SEARCH_HTTP_" ++ toString r.status_code)
    else
      match parse_search_page_for_fields r.text.dom rs_pn with
      | (some product_link, brand, mpn, status) =>
        if brand ≠ "" ∨ mpn ≠ "" then (some product_link, brand, mpn, status)
        else aggStep r.text.raw rs_pn
      | (none, _, _, _) => aggStep r.text.raw rs_pn

/-- Lines 317-341 of fetch_rs_info: everything after the direct attempt. -/
def fetch_search_phase (net : Net) (rs_pn : String) : String × String × String × String :=
  match search_rs_for_part_combined net rs_pn with
  | (none, _, _, status) => ("", "", "", status)
  | (some product_link, brand_s, mpn_s, status) =>
    if fieldsOk brand_s mpn_s rs_pn then
      (mpn_clean_step mpn_s rs_pn, brand_s, product_link, "OK(search:" ++ status ++ ")")
    else
      match net product_link with
      | .error e => ("", "", product_link, "ERROR_FETCH_PRODUCT:" ++ e)
      | .ok r2 =>
        if r2.status_code ≠ 200 then
          ("", "", product_link, "PRODUCT_HTTP_" ++ toString r2.status_code)
        else
          let mb := parse_product_page_for_fields r2.text.dom rs_pn
          if fieldsOk mb.2 mb.1 rs_pn then (mb.1, mb.2, product_link, "OK(search->product)")
          else ("", "", product_link, "PRODUCT_PAGE_FIELDS_MISSING")

/-- fetch_rs_info (lines 305-341): direct product page first, then the
search phase; the result is (mpn, brand, url, status). -/
def fetch_rs_info (net : Net) (rs_pn : String) : String × String × String × String :=
  match net ("https://fr.rs-online.com/web/p/" ++ rs_pn ++ "/") with
  | .error e => ("", "", "", "ERROR_DIRECT:" ++ e)
  | .ok r =>
    if r.status_code = 200 then
      let mb := parse_product_page_for_fields r.text.dom rs_pn
      if fieldsOk mb.2 mb.1 rs_pn then
        (mb.1, mb.2, "https://fr.rs-online.com/web/p/" ++ rs_pn ++ "/", "OK(direct)")
      else fetch_search_phase net rs_pn
    else fetch_search_phase net rs_pn

/-- A status tagged as success: it begins with OK( . -/
def isSuccessStatus (s : String) : Bool := beginsWith ("OK(".data) s.data

def sepFree (m : String) : Bool := m.data.all (fun c => !sepChar c)

/-- Invariant satisfied by every MPN the search extractors can hand to the
final cleaning step: empty, strictly valid, or a separator-free token
accepted by the loose heuristic. -/
def GoodMpn (rs m : String) : Prop :=
  m = "" ∨ is_valid_mpn_from_field m rs = true ∨
    (heuristic_mpn_candidate m rs = true ∧ sepFree m = true)

/-- A concrete direct product page whose brand element reads RS PRO. -/
def witnessDom : Node :=
  Node.elem "[document]" []
    [Node.elem "a" [("data-testid", "brand-link"), ("href", "/x")] [Node.text "RS PRO"]]

def witnessNet : Net := fun _ => .ok ⟨200, ⟨"", witnessDom⟩⟩

/-! ### Helper lemmas -/

theorem firstHeurTok_eq_find (rs : String) :
    ∀ l : List String, firstHeurTok rs l = l.find? (fun t => heuristic_mpn_candidate t rs) := by
  intro l
  induction l with
  | nil => rfl
  | cons t ts ih =>
    unfold firstHeurTok
    by_cases h : heuristic_mpn_candidate t rs
    · simp [h, List.find?]
    · simp only [Bool.not_eq_true] at h
      simp [h, List.find?, ih]

theorem mainLoop_closed (lookup : Lookup) (a : List String) :
    ∀ (xs : List String) (out : List OutRow),
      mainLoop lookup a xs out =
        out ++ (xs.filter (fun rs => decide (rs ≠ "" ∧ rs ∉ a))).map (lookupRow lookup) := by
  intro xs
  induction xs with
  | nil => intro out; simp [mainLoop]
  | cons rs rest ih =>
    intro out
    unfold mainLoop
    by_cases h1 : rs = ""
    · simp [h1, ih]
    · by_cases h2 : rs ∈ a
      · simp [h1, h2, ih]
      · simp [h1, h2, ih]

theorem main_closed (lookup : Lookup) (input : List String) (out0 : List OutRow) :
    main lookup input out0 = out0 ++ (qualifying input out0).map (lookupRow lookup) := by
  unfold main qualifying
  exact mainLoop_closed lookup (load_already_done out0) (input.map pyStrip) out0

theorem lookupRow_rs_pn (lookup : Lookup) (rs : String) :
    (lookupRow lookup rs).rs_pn = rs := by
  unfold lookupRow
  cases lookup rs with
  | ok v => rfl
  | error e => rfl

theorem digit_not_ws {c : Char} (hc : isAsciiDigit c = true) : pyWs c = false := by
  unfold isAsciiDigit at hc
  simp only [Bool.and_eq_true, decide_eq_true_eq] at hc
  unfold pyWs
  simp only [Bool.or_eq_false_iff, beq_eq_false_iff_ne, ne_eq]
  omega

theorem string_empty_iff (s : String) : s = "" ↔ s.data = [] := by
  cases s with
  | mk d =>
    constructor
    · intro h
      exact congrArg String.data h
    · intro h
      simp only at h
      rw [h]

theorem dropWhile_eq_self_of_not (p : Char → Bool) (l : List Char)
    (h : ∀ c ∈ l, p c = false) : l.dropWhile p = l := by
  cases l with
  | nil => rfl
  | cons c cs => simp [List.dropWhile_cons, h c (List.mem_cons_self c cs)]

theorem stripList_eq_self (l : List Char) (h : ∀ c ∈ l, pyWs c = false) :
    stripList l = l := by
  unfold stripList ltrim
  rw [dropWhile_eq_self_of_not _ _ h]
  rw [dropWhile_eq_self_of_not _ _ (fun c hc => h c (List.mem_reverse.mp hc))]
  exact List.reverse_reverse l

theorem pyStrip_eq_self (s : String) (h : ∀ c ∈ s.data, pyWs c = false) :
    pyStrip s = s := by
  unfold pyStrip
  rw [stripList_eq_self _ h]

theorem splitWsAux_no_ws (l : List Char) :
    ∀ acc : List Char, (∀ c ∈ l, pyWs c = false) → (acc ≠ [] ∨ l ≠ []) →
      splitWsAux l acc = [acc.reverse ++ l] := by
  induction l with
  | nil =>
    intro acc h hne
    rcases hne with h1 | h1
    · simp [splitWsAux, List.isEmpty_iff, h1]
    · exact absurd rfl h1
  | cons c cs ih =>
    intro acc h hne
    have hc : pyWs c = false := h c (List.mem_cons_self c cs)
    unfold splitWsAux
    rw [hc]
    simp only [Bool.false_eq_true, if_false]
    rw [ih (c :: acc) (fun d hd => h d (List.mem_cons_of_mem c hd)) (Or.inl (by simp))]
    simp

theorem pySplitWs_single (s : String) (h : ∀ c ∈ s.data, pyWs c = false)
    (hne : s ≠ "") : pySplitWs s = [s] := by
  unfold pySplitWs
  rw [splitWsAux_no_ws s.data [] h (Or.inr (fun e => hne ((string_empty_iff s).mpr e)))]
  simp only [List.reverse_nil, List.nil_append, List.map_cons, List.map_nil]

theorem hasSub_single_false (ch : Char) (l : List Char)
    (h : ∀ c ∈ l, c ≠ ch) : hasSub [ch] l = false := by
  induction l with
  | nil => rfl
  | cons c cs ih =>
    unfold hasSub beginsWith
    have hne : decide (ch = c) = false := by
      simp only [decide_eq_false_iff_not]
      exact fun e => h c (List.mem_cons_self c cs) e.symm
    simp [hne, ih (fun d hd => h d (List.mem_cons_of_mem c hd))]

theorem digits_no_colon (l : List Char) (h : ∀ c ∈ l, isAsciiDigit c = true) :
    hasSub (":".data) l = false := by
  have hc : (":".data) = [Char.ofNat 58] := rfl
  rw [hc]
  refine hasSub_single_false _ _ (fun c hcm e => ?_)
  have hd := h c hcm
  unfold isAsciiDigit at hd
  simp only [Bool.and_eq_true, decide_eq_true_eq] at hd
  have : c.toNat = 58 := by rw [e]; decide
  omega

/-! ### Lemmas about stripping twice -/

theorem head?_dropWhile_not (p : Char → Bool) (l : List Char) :
    ∀ c, (l.dropWhile p).head? = some c → p c = false := by
  induction l with
  | nil =>
    intro c hc
    simp [List.dropWhile] at hc
  | cons a as ih =>
    intro c hc
    rw [List.dropWhile_cons] at hc
    cases hpa : p a with
    | true => rw [hpa] at hc; simp only [if_true] at hc; exact ih c hc
    | false =>
      rw [hpa] at hc
      simp only [Bool.false_eq_true, if_false, List.head?_cons, Option.some.injEq] at hc
      rw [← hc]
      exact hpa

theorem dropWhile_eq_self_of_head (p : Char → Bool) (l : List Char)
    (h : ∀ c, l.head? = some c → p c = false) : l.dropWhile p = l := by
  cases l with
  | nil => rfl
  | cons a as => simp [List.dropWhile_cons, h a rfl]

theorem dropWhile_getLast? (p : Char → Bool) (l : List Char)
    (h : l.dropWhile p ≠ []) : (l.dropWhile p).getLast? = l.getLast? := by
  induction l with
  | nil => simp [List.dropWhile] at h
  | cons a as ih =>
    cases hpa : p a with
    | false => simp [List.dropWhile_cons, hpa]
    | true =>
      simp only [List.dropWhile_cons, hpa, if_true] at h ⊢
      rw [ih h]
      cases as with
      | nil => simp [List.dropWhile] at h
      | cons b bs => simp [List.getLast?_cons_cons]

theorem stripList_head?_not_ws (l : List Char) (c : Char)
    (hc : (stripList l).head? = some c) : pyWs c = false := by
  unfold stripList at hc
  rw [List.head?_reverse] at hc
  have hne : (ltrim l).reverse.dropWhile pyWs ≠ [] := by
    intro e
    rw [e] at hc
    simp at hc
  rw [dropWhile_getLast? _ _ hne, List.getLast?_reverse] at hc
  exact head?_dropWhile_not pyWs l c hc

theorem stripList_getLast?_not_ws (l : List Char) (c : Char)
    (hc : (stripList l).getLast? = some c) : pyWs c = false := by
  unfold stripList at hc
  rw [List.getLast?_reverse] at hc
  exact head?_dropWhile_not pyWs _ c hc

theorem stripList_idem (l : List Char) : stripList (stripList l) = stripList l := by
  have h1 : (stripList l).dropWhile pyWs = stripList l :=
    dropWhile_eq_self_of_head pyWs _ (fun c hc => stripList_head?_not_ws l c hc)
  have h2 : (stripList l).reverse.dropWhile pyWs = (stripList l).reverse := by
    refine dropWhile_eq_self_of_head pyWs _ (fun c hc => ?_)
    rw [List.head?_reverse] at hc
    exact stripList_getLast?_not_ws l c hc
  conv_lhs => rw [stripList, ltrim, h1, h2, List.reverse_reverse]

theorem pyStrip_idem (s : String) : pyStrip (pyStrip s) = pyStrip s := by
  unfold pyStrip
  exact congrArg String.mk (stripList_idem s.data)

/-! ### Counting lemmas for the batch loop -/

theorem countKey_append (k : String) (a b : List OutRow) :
    countKey k (a ++ b) = countKey k a + countKey k b := by
  unfold countKey
  rw [List.filter_append, List.length_append]

theorem countKey_map_lookupRow (k : String) (lookup : Lookup) (xs : List String) :
    countKey k (xs.map (lookupRow lookup)) = xs.count k := by
  induction xs with
  | nil => rfl
  | cons x xs ih =>
    unfold countKey at ih ⊢
    simp only [List.map_cons, List.filter_cons, lookupRow_rs_pn, List.count_cons]
    by_cases hx : x = k
    · simp [hx, ih, Nat.add_comm]
    · have : (x == k) = false := by simp [hx]
      simp [hx, this, ih]

theorem qualifying_count (input : List String) (out0 : List OutRow) (k : String)
    (hk : k ≠ "") (hnot : k ∉ load_already_done out0) :
    (qualifying input out0).count k = (input.map pyStrip).count k := by
  unfold qualifying
  rw [List.count_filter]
  simp [hk, hnot]

theorem qualifying_after_run (l1 : Lookup) (input : List String) (out0 : List OutRow) :
    qualifying input (main l1 input out0) = [] := by
  unfold qualifying
  rw [List.filter_eq_nil_iff]
  intro rs hrs
  simp only [decide_eq_true_eq, not_and, not_not]
  intro hne
  rw [main_closed, load_already_done, List.map_append]
  rw [List.mem_append]
  by_cases hd0 : rs ∈ load_already_done out0
  · exact Or.inl hd0
  · right
    have hq : rs ∈ qualifying input out0 := by
      unfold qualifying
      rw [List.mem_filter]
      exact ⟨hrs, by simp [hne, hd0]⟩
    have hfix : pyStrip rs = rs := by
      rcases List.mem_map.mp hrs with ⟨x, _, hx⟩
      rw [← hx, pyStrip_idem]
    exact List.mem_map.mpr ⟨lookupRow l1 rs, List.mem_map.mpr ⟨rs, hq, rfl⟩,
      by rw [lookupRow_rs_pn, hfix]⟩

/-! ### Claim theorems: the validators -/

/-- C1 counterexample: the candidate AB12 is equal to the hint AB 12 under
case-insensitive comparison after removing spaces from both, yet
is_valid_mpn_from_field accepts it — the code removes spaces from the
candidate only, so a hint that carries the spaces is not matched. -/
theorem mpn_echo_counterexample :
    lowerStr (removeSpaces (pyStrip "AB12")) = lowerStr (removeSpaces (pyStrip "AB 12")) ∧
    ("AB 12" : String) ≠ "" ∧
    is_valid_mpn_from_field "AB12" "AB 12" = true := by decide

/-- C1 (amended): for every candidate and non-empty RS_PN hint, if the
stripped candidate with its space characters removed equals the hint under
case-insensitive comparison (spaces removed from the candidate only, the
hint taken as written), then is_valid_mpn_from_field returns false. -/
theorem mpn_never_echoes_query (c h : String) (hh : h ≠ "")
    (heq : lowerStr (removeSpaces (pyStrip c)) = lowerStr h) :
    is_valid_mpn_from_field c h = false := by
  unfold is_valid_mpn_from_field
  by_cases hc : c = ""
  · rw [if_pos hc]
  · rw [if_neg hc]
    by_cases h1 : 6 < (pySplitWs (pyStrip c)).length
    · rw [if_pos h1]
    · rw [if_neg h1]
      by_cases h2 : rejection_substrings.any
          (fun bad => containsSub (lowerStr (pyStrip c)) bad) = true
      · simp [h2]
      · simp only [Bool.not_eq_true] at h2
        simp only [h2, Bool.false_eq_true, if_false]
        by_cases h3 : (!((pyStrip c).data.any isAsciiAlnum)) = true
        · simp [h3]
        · simp only [Bool.not_eq_true] at h3
          simp only [h3, Bool.false_eq_true, if_false]
          rw [if_pos ⟨hh, heq⟩]

/-- Witness for C1 (amended) at the concrete candidate "x Y" and hint "xy". -/
theorem mpn_never_echoes_query_witness : is_valid_mpn_from_field "x Y" "xy" = false :=
  mpn_never_echoes_query "x Y" "xy" (by decide) (by decide)

/-- C6: a token that is purely 2 to 20 ASCII digits is accepted by
heuristic_mpn_candidate exactly when it differs from the RS_PN hint as a
string (exact equality). -/
theorem numeric_token_accept_iff_not_hint (t h : String)
    (hd : t.data.all isAsciiDigit = true) (h2 : 2 ≤ t.length) (h20 : t.length ≤ 20) :
    heuristic_mpn_candidate t h = decide (t ≠ h) := by
  have hdig : ∀ c ∈ t.data, isAsciiDigit c = true := fun c hc => List.all_eq_true.mp hd c hc
  have hws : ∀ c ∈ t.data, pyWs c = false := fun c hc => digit_not_ws (hdig c hc)
  have hne : t ≠ "" := by
    intro e
    rw [e] at h2
    simp [String.length] at h2
  have hstrip : pyStrip t = t := pyStrip_eq_self t hws
  have hdata : t.data ≠ [] := fun e => hne ((string_empty_iff t).mpr e)
  unfold heuristic_mpn_candidate
  rw [if_neg hne, hstrip, pySplitWs_single t hws hne]
  simp only [List.length_singleton]
  rw [if_neg (by omega)]
  have hcol : containsSub t ":" = false := by
    unfold containsSub
    exact digits_no_colon t.data hdig
  rw [hcol]
  simp only [Bool.false_eq_true, if_false]
  have hanum : t.data.any isAsciiAlnum = true := by
    cases ht : t.data with
    | nil => exact absurd ht hdata
    | cons c cs =>
      refine List.any_eq_true.mpr ⟨c, List.mem_cons_self c cs, ?_⟩
      unfold isAsciiAlnum
      rw [hdig c (by rw [ht]; exact List.mem_cons_self c cs)]
      simp
  rw [hanum]
  simp only [Bool.not_true, Bool.false_eq_true, if_false]
  rw [if_pos ⟨hd, h2, h20⟩]
  by_cases he : t = h
  · rw [if_pos ⟨he ▸ hne, he⟩]
    simp [he]
  · rw [if_neg (fun hcon => he hcon.2)]
    simp [he]

/-- Witness for C6 at the token "12" and hint "999". -/
theorem numeric_token_accept_witness :
    heuristic_mpn_candidate "12" "999" = decide (("12" : String) ≠ "999") :=
  numeric_token_accept_iff_not_hint "12" "999" (by decide) (by decide) (by decide)

/-- C7: a candidate whose stripped form has more than six whitespace-separated
words, or whose stripped lower-cased form contains a rejection substring, is
rejected by is_valid_mpn_from_field for every RS_PN hint. -/
theorem strict_rejects_long_or_listed (c h : String)
    (hyp : 6 < (pySplitWs (pyStrip c)).length ∨
      ∃ bad ∈ rejection_substrings, containsSub (lowerStr (pyStrip c)) bad = true) :
    is_valid_mpn_from_field c h = false := by
  unfold is_valid_mpn_from_field
  by_cases hc : c = ""
  · rw [if_pos hc]
  · rw [if_neg hc]
    by_cases h1 : 6 < (pySplitWs (pyStrip c)).length
    · rw [if_pos h1]
    · rw [if_neg h1]
      have h2 : rejection_substrings.any
          (fun bad => containsSub (lowerStr (pyStrip c)) bad) = true := by
        rcases hyp with h3 | ⟨bad, hm, hs⟩
        · exact absurd h3 h1
        · exact List.any_eq_true.mpr ⟨bad, hm, hs⟩
      simp [h2]

/-- Witness for C7 at the candidate "NiMH battery pack". -/
theorem strict_rejects_witness :
    is_valid_mpn_from_field "NiMH battery pack" "777" = false :=
  strict_rejects_long_or_listed "NiMH battery pack" "777"
    (Or.inr ⟨"battery", by decide, by decide⟩)

/-- C8: a non-empty MPN candidate that fails strict validation is replaced by
the first token (in the order produced by splitting on whitespace and the
punctuation , ; /) that passes the loose heuristic, or by the empty string
when no token passes. -/
theorem failed_mpn_sanitization (m rs : String) (hm : m ≠ "")
    (hv : is_valid_mpn_from_field m rs = false) :
    mpn_clean_step m rs =
      match (pySplitSep m).find? (fun t => heuristic_mpn_candidate t rs) with
      | some t => t
      | none => "" := by
  unfold mpn_clean_step sanitize_mpn
  rw [if_pos ⟨hm, hv⟩, firstHeurTok_eq_find]

/-- Witness for C8 at the invalid candidate "ah 1" (no token passes, the MPN
is discarded). -/
theorem failed_mpn_sanitization_witness : mpn_clean_step "ah 1" "999" = "" :=
  (failed_mpn_sanitization "ah 1" "999" (by decide) (by decide)).trans (by decide)

/-- C9: looks_like_brand agrees with the specification predicate on every
string, and the three quoted examples evaluate as stated. -/
theorem looks_like_brand_spec :
    (∀ s, looks_like_brand s = brandSpecClaim s) ∧
    looks_like_brand "RS PRO" = true ∧
    looks_like_brand "" = false ∧ looks_like_brand "3" = false := by
  refine ⟨fun s => ?_, by decide, by decide, by decide⟩
  unfold looks_like_brand brandSpecClaim
  by_cases hc : s = ""
  · subst hc; decide
  · rw [if_neg hc]
    by_cases ht : pyStrip s = ""
    · rw [ht]
      simp
    · have h1 : decide (pyStrip s ≠ "") = true := by simp [ht]
      rw [h1]
      simp

/-! ### Claim theorems: the batch loop -/

/-- C10: within one run of main the resume set is fixed before the loop, so
every qualifying occurrence of an identifier appends its own row: the number
of rows keyed k after the run is the count in the initial output plus the
number of occurrences of k among the stripped input identifiers. -/
theorem single_run_duplicates (lookup : Lookup) (input : List String)
    (out0 : List OutRow) (k : String) (hk : k ≠ "")
    (hnot : k ∉ load_already_done out0) :
    countKey k (main lookup input out0) =
      countKey k out0 + (input.map pyStrip).count k := by
  rw [main_closed, countKey_append, countKey_map_lookupRow,
    qualifying_count input out0 k hk hnot]

/-- Witness for C10: the duplicated input A, A produces two rows keyed A in a
single run from an empty output. -/
theorem single_run_duplicates_witness :
    countKey "A" (main okLookup ["A", "A"] []) = 2 :=
  (single_run_duplicates okLookup ["A", "A"] [] "A" (by decide)
    (by simp [load_already_done])).trans (by decide)

/-- C5: the batch loop is row-local: the run always appends exactly one row
per qualifying identifier (so a failure on one identifier never prevents any
other from being processed), and an identifier whose lookup raises gets a
single row with empty MPN, Brand and URL and an EXCEPTION status. -/
theorem exception_rows_row_local (lookup : Lookup) (input : List String)
    (out0 : List OutRow) (rs e : String) (herr : lookup rs = .error e) :
    main lookup input out0 = out0 ++ (qualifying input out0).map (lookupRow lookup) ∧
    lookupRow lookup rs = ⟨rs, "", "", "", "EXCEPTION:" ++ e⟩ ∧
    (main lookup input out0).length = out0.length + (qualifying input out0).length := by
  refine ⟨main_closed lookup input out0, ?_, ?_⟩
  · unfold lookupRow
    rw [herr]
  · rw [main_closed]
    simp

/-- Witness for C5: a lookup raising on A still yields one row for A and one
row for B. -/
theorem exception_rows_row_local_witness :
    main errLookup ["A", "B"] [] =
      [⟨"A", "", "", "", "EXCEPTION:boom"⟩, ⟨"B", "m", "b", "u", "OK"⟩] :=
  ((exception_rows_row_local errLookup ["A", "B"] [] "A" "boom" rfl).1).trans (by decide)

/-- C4 counterexample: running the batch twice on the duplicated input A, A
from an empty output leaves two rows keyed A — the double-run output does
contain duplicate RS_PN rows. -/
theorem resume_duplicate_counterexample :
    countKey "A" (main okLookup ["A", "A"] (main okLookup ["A", "A"] [])) = 2 := by
  decide

/-- C4 (amended): every RS_PN already present in the output when a run starts
is skipped (its row count never grows), a second run over the same input
appends nothing at all, and the double-run output has no duplicate RS_PN rows
provided the input itself contains no duplicated non-blank identifier and the
output was initially empty — duplicates can still arise inside a single run
from a duplicated input. -/
theorem resume_skips_done (l1 l2 : Lookup) (input : List String) (out0 : List OutRow) :
    (∀ k ∈ load_already_done out0,
        countKey k (main l1 input out0) = countKey k out0) ∧
    main l2 input (main l1 input out0) = main l1 input out0 ∧
    (out0 = [] → ((input.map pyStrip).filter (fun s => decide (s ≠ ""))).Nodup →
      ((main l2 input (main l1 input out0)).map (fun r => r.rs_pn)).Nodup) := by
  have hrun2 : main l2 input (main l1 input out0) = main l1 input out0 := by
    rw [main_closed l2, qualifying_after_run]
    simp
  refine ⟨?_, hrun2, ?_⟩
  · intro k hkdone
    rw [main_closed, countKey_append, countKey_map_lookupRow]
    have : (qualifying input out0).count k = 0 := by
      rw [List.count_eq_zero]
      intro hkq
      unfold qualifying at hkq
      rw [List.mem_filter] at hkq
      have := hkq.2
      simp only [decide_eq_true_eq] at this
      exact this.2 hkdone
    rw [this]
    omega
  · intro h0 hnd
    rw [hrun2]
    subst h0
    rw [main_closed]
    simp only [List.nil_append, List.map_map, Function.comp_def]
    have hkeys : (qualifying input []).map (fun a => (lookupRow l1 a).rs_pn) =
        qualifying input [] := by
      rw [List.map_congr_left (fun a _ => lookupRow_rs_pn l1 a)]
      simp
    rw [hkeys]
    unfold qualifying
    have : ∀ rs ∈ input.map pyStrip,
        decide (rs ≠ "" ∧ rs ∉ load_already_done []) = decide (rs ≠ "") := by
      intro rs _
      simp [load_already_done]
    rw [List.filter_congr this]
    exact hnd

/-! ### Claim theorems: the raw scan -/

theorem scanLoop_eq_findSome (raw rs : String) :
    ∀ ms : List (List Char), scanLoop raw rs ms = ms.findSome? (rawHit raw rs) := by
  intro ms
  induction ms with
  | nil => rfl
  | cons m tl ih =>
    unfold scanLoop rawHit
    rw [List.findSome?_cons]
    by_cases hc : containsSub ⟨m⟩ rs = true
    · rw [if_pos hc, if_pos hc]
      by_cases hf : (extractRaw raw rs m).1 ≠ "" ∨ (extractRaw raw rs m).2 ≠ ""
      · rw [if_pos hf, if_pos hf]
      · rw [if_neg hf, if_neg hf]
        exact ih
    · rw [if_neg hc, if_neg hc]
      exact ih

/-- C3 counterexample: on the document /web/p/123 with RS_PN 123 the single
link occurrence does contain the RS_PN, yet the scan still falls back to the
first-link result OK(raw-first) because the window around it yields neither
a brand nor an MPN — refuting the claimed "if and only if no occurrence
contains the RS_PN". -/
theorem raw_fallback_counterexample :
    findWebP "/web/p/123" = ["/web/p/123".data] ∧
    containsSub "/web/p/123" "123" = true ∧
    aggressive_search_scan "/web/p/123" "123" =
      (some "https://fr.rs-online.com/web/p/123", "", "", "OK(raw-first)") := by
  decide

/-- C3 (amended): aggressive_search_scan scans every occurrence of the
product-link pattern in order; it returns the first occurrence containing
the RS_PN whose surrounding fixed-width window yields a brand or an MPN
(status OK(raw-snippet)); it falls back to the first link found, with status
OK(raw-first), if and only if links exist but every occurrence containing
the RS_PN yields neither field (in particular whenever no occurrence
contains the RS_PN); and it reports NO_RAW_LINKS with no link if and only
if no occurrence matches at all. -/
theorem aggressive_scan_structure (raw rs : String) :
    (aggressive_search_scan raw rs =
      match findWebP raw with
      | [] => (none, "", "", "NO_RAW_LINKS")
      | m0 :: ms =>
        match (m0 :: ms).findSome? (rawHit raw rs) with
        | some (link, brand, mpn) => (some link, brand, mpn, "OK(raw-snippet)")
        | none => (some (pyUrljoin ⟨m0⟩), "", "", "OK(raw-first)")) ∧
    ((aggressive_search_scan raw rs).2.2.2 = "NO_RAW_LINKS" ↔ findWebP raw = []) ∧
    ((aggressive_search_scan raw rs).2.2.2 = "OK(raw-first)" ↔
      findWebP raw ≠ [] ∧ ∀ m ∈ findWebP raw, rawHit raw rs m = none) := by
  have hmain : aggressive_search_scan raw rs =
      match findWebP raw with
      | [] => (none, "", "", "NO_RAW_LINKS")
      | m0 :: ms =>
        match (m0 :: ms).findSome? (rawHit raw rs) with
        | some (link, brand, mpn) => (some link, brand, mpn, "OK(raw-snippet)")
        | none => (some (pyUrljoin ⟨m0⟩), "", "", "OK(raw-first)") := by
    unfold aggressive_search_scan
    cases findWebP raw with
    | nil => rfl
    | cons m0 ms =>
      dsimp only
      rw [scanLoop_eq_findSome]
  refine ⟨hmain, ?_, ?_⟩
  · rw [hmain]
    cases hf : findWebP raw with
    | nil => simp
    | cons m0 ms =>
      dsimp only
      cases hs : (m0 :: ms).findSome? (rawHit raw rs) with
      | none =>
        dsimp only
        exact iff_of_false (by decide) (by simp)
      | some v =>
        rcases v with ⟨l, b, m⟩
        dsimp only
        exact iff_of_false (by decide) (by simp)
  · rw [hmain]
    cases hf : findWebP raw with
    | nil => simp
    | cons m0 ms =>
      dsimp only
      cases hs : (m0 :: ms).findSome? (rawHit raw rs) with
      | none =>
        dsimp only
        refine iff_of_true rfl ⟨by simp, ?_⟩
        exact List.findSome?_eq_none_iff.mp hs
      | some v =>
        rcases v with ⟨l, b, m⟩
        dsimp only
        refine iff_of_false (by decide) (fun hall => ?_)
        have := List.findSome?_eq_none_iff.mpr hall.2
        rw [hs] at this
        exact absurd this (by simp)

/-! ### Lemmas for the pipeline invariant -/

theorem heuristic_empty (rs : String) : heuristic_mpn_candidate "" rs = false := by
  simp [heuristic_mpn_candidate]

theorem splitSepAux_sepFree (l : List Char) :
    ∀ (acc : List Char) (prev : Bool), (∀ c ∈ acc, sepChar c = false) →
      ∀ t ∈ splitSepAux l acc prev, ∀ c ∈ t, sepChar c = false := by
  induction l with
  | nil =>
    intro acc prev hacc t ht c hc
    unfold splitSepAux at ht
    simp only [List.mem_singleton] at ht
    subst ht
    exact hacc c (List.mem_reverse.mp hc)
  | cons d ds ih =>
    intro acc prev hacc t ht c hc
    unfold splitSepAux at ht
    cases hsd : sepChar d with
    | true =>
      rw [hsd] at ht
      simp only [if_true] at ht
      cases prev with
      | true =>
        simp only [if_true] at ht
        exact ih [] true (by simp) t ht c hc
      | false =>
        simp only [Bool.false_eq_true, if_false] at ht
        rcases List.mem_cons.mp ht with h1 | h1
        · subst h1
          exact hacc c (List.mem_reverse.mp hc)
        · exact ih [] true (by simp) t h1 c hc
    | false =>
      rw [hsd] at ht
      simp only [Bool.false_eq_true, if_false] at ht
      refine ih (d :: acc) false ?_ t ht c hc
      intro x hx
      rcases List.mem_cons.mp hx with h1 | h1
      · subst h1
        exact hsd
      · exact hacc x h1

theorem splitSepAux_no_sep (l : List Char) :
    ∀ (acc : List Char) (prev : Bool), (∀ c ∈ l, sepChar c = false) →
      splitSepAux l acc prev = [acc.reverse ++ l] := by
  induction l with
  | nil =>
    intro acc prev _
    unfold splitSepAux
    simp
  | cons d ds ih =>
    intro acc prev h
    unfold splitSepAux
    rw [h d (List.mem_cons_self d ds)]
    simp only [Bool.false_eq_true, if_false]
    rw [ih (d :: acc) false (fun x hx => h x (List.mem_cons_of_mem d hx))]
    simp

theorem pySplitSep_single (m : String) (hs : sepFree m = true) :
    pySplitSep m = [m] := by
  unfold pySplitSep
  have hall : ∀ c ∈ m.data, sepChar c = false := by
    intro c hc
    have := List.all_eq_true.mp hs c hc
    simp only [Bool.not_eq_true'] at this
    exact this
  rw [splitSepAux_no_sep m.data [] false hall]
  rfl

theorem sanitize_mpn_shape (m rs : String) :
    sanitize_mpn m rs = "" ∨
      (heuristic_mpn_candidate (sanitize_mpn m rs) rs = true ∧
        sepFree (sanitize_mpn m rs) = true) := by
  unfold sanitize_mpn
  cases hft : firstHeurTok rs (pySplitSep m) with
  | none => exact Or.inl rfl
  | some t =>
    right
    dsimp only
    rw [firstHeurTok_eq_find] at hft
    have h1 := List.find?_some hft
    refine ⟨h1, ?_⟩
    have hmem : t ∈ pySplitSep m := List.mem_of_find?_eq_some hft
    unfold pySplitSep at hmem
    rcases List.mem_map.mp hmem with ⟨l, hl, hml⟩
    unfold sepFree
    rw [← hml]
    refine List.all_eq_true.mpr (fun c hcm => ?_)
    have := splitSepAux_sepFree m.data [] false (by simp) l hl c hcm
    simp [this]

theorem goodMpn_of_shape {rs m : String}
    (h : m = "" ∨ is_valid_mpn_from_field m rs = true) : GoodMpn rs m := by
  rcases h with h | h
  · exact Or.inl h
  · exact Or.inr (Or.inl h)

theorem mpn_clean_step_goodMpn (m rs : String) (hg : GoodMpn rs m) :
    GoodMpn rs (mpn_clean_step m rs) := by
  unfold mpn_clean_step
  by_cases hcond : m ≠ "" ∧ is_valid_mpn_from_field m rs = false
  · rw [if_pos hcond]
    rcases sanitize_mpn_shape m rs with h | h
    · exact Or.inl h
    · exact Or.inr (Or.inr h)
  · rw [if_neg hcond]
    exact hg

theorem mpn_clean_step_valid (m rs : String) (hg : GoodMpn rs m)
    (hok : is_valid_mpn_from_field m rs = true ∨ heuristic_mpn_candidate m rs = true) :
    is_valid_mpn_from_field (mpn_clean_step m rs) rs = true ∨
      heuristic_mpn_candidate (mpn_clean_step m rs) rs = true := by
  unfold mpn_clean_step
  by_cases hv : is_valid_mpn_from_field m rs = true
  · have hnc : ¬(m ≠ "" ∧ is_valid_mpn_from_field m rs = false) := by
      intro hcon
      rw [hv] at hcon
      exact absurd hcon.2 (by simp)
    rw [if_neg hnc]
    exact Or.inl hv
  · have hbool : is_valid_mpn_from_field m rs = false := by
      cases hb : is_valid_mpn_from_field m rs
      · rfl
      · exact absurd hb hv
    have hheur : heuristic_mpn_candidate m rs = true := by
      rcases hok with h | h
      · exact absurd h hv
      · exact h
    have hme : m ≠ "" := by
      intro e
      subst e
      rw [heuristic_empty] at hheur
      exact absurd hheur (by simp)
    rw [if_pos ⟨hme, hbool⟩]
    rcases hg with h | h | h
    · exact absurd h hme
    · exact absurd h hv
    · have hsan : sanitize_mpn m rs = m := by
        unfold sanitize_mpn
        rw [pySplitSep_single m h.2]
        simp [firstHeurTok, h.1]
      rw [hsan]
      exact Or.inr h.1

theorem fieldsOk_elim (brand mpn rs : String) (h : fieldsOk brand mpn rs = true) :
    looks_like_brand brand = true ∨ is_valid_mpn_from_field mpn rs = true ∨
      heuristic_mpn_candidate mpn rs = true := by
  unfold fieldsOk at h
  simp only [Bool.or_eq_true, Bool.and_eq_true, decide_eq_true_eq] at h
  rcases h with ⟨_, h⟩ | ⟨_, h⟩
  · exact Or.inl h
  · exact Or.inr h

theorem isSuccess_head_false (c : Char) (cs : List Char) (hc : c.toNat ≠ 79) :
    beginsWith ("OK(".data) (c :: cs) = false := by
  show beginsWith (⟨79, by decide⟩ :: "K(".data) (c :: cs) = false
  unfold beginsWith
  have hne : decide ((⟨79, by decide⟩ : Char) = c) = false := by
    simp only [decide_eq_false_iff_not]
    intro e
    exact hc (by rw [← e]; decide)
  rw [hne]
  simp

theorem isSuccess_ERROR_DIRECT (e : String) :
    isSuccessStatus ("ERROR_DIRECT:" ++ e) = false := by
  unfold isSuccessStatus
  have h : ("ERROR_DIRECT:" ++ e).data = 'E' :: ("RROR_DIRECT:".data ++ e.data) := rfl
  rw [h]
  exact isSuccess_head_false _ _ (by decide)

theorem isSuccess_SEARCH_ERROR (e : String) :
    isSuccessStatus ("SEARCH_ERROR:" ++ e) = false := by
  unfold isSuccessStatus
  have h : ("SEARCH_ERROR:" ++ e).data = 'S' :: ("EARCH_ERROR:".data ++ e.data) := rfl
  rw [h]
  exact isSuccess_head_false _ _ (by decide)

theorem isSuccess_SEARCH_HTTP (e : String) :
    isSuccessStatus ("SEARCH_HTTP_" ++ e) = false := by
  unfold isSuccessStatus
  have h : ("SEARCH_HTTP_" ++ e).data = 'S' :: ("EARCH_HTTP_".data ++ e.data) := rfl
  rw [h]
  exact isSuccess_head_false _ _ (by decide)

theorem isSuccess_ERROR_FETCH (e : String) :
    isSuccessStatus ("ERROR_FETCH_PRODUCT:" ++ e) = false := by
  unfold isSuccessStatus
  have h : ("ERROR_FETCH_PRODUCT:" ++ e).data = 'E' :: ("RROR_FETCH_PRODUCT:".data ++ e.data) := rfl
  rw [h]
  exact isSuccess_head_false _ _ (by decide)

theorem isSuccess_PRODUCT_HTTP (e : String) :
    isSuccessStatus ("PRODUCT_HTTP_" ++ e) = false := by
  unfold isSuccessStatus
  have h : ("PRODUCT_HTTP_" ++ e).data = 'P' :: ("RODUCT_HTTP_".data ++ e.data) := rfl
  rw [h]
  exact isSuccess_head_false _ _ (by decide)

theorem cardMpnDtBranch_shape (container : Node) (rs : String) :
    cardMpnDtBranch container rs = "" ∨
      is_valid_mpn_from_field (cardMpnDtBranch container rs) rs = true := by
  unfold cardMpnDtBranch
  cases findDtMpn container with
  | none => exact Or.inl rfl
  | some p =>
    dsimp only
    cases nextSibling container p ddNamePred with
    | none => exact Or.inl rfl
    | some nxt =>
      dsimp only
      by_cases ht : pyGetText "" nxt ≠ ""
      · rw [if_pos ht]
        by_cases hv : is_valid_mpn_from_field (pyNorm (pyGetText " " nxt)) rs = true
        · rw [if_pos hv]
          exact Or.inr hv
        · rw [if_neg hv]
          exact Or.inl rfl
      · rw [if_neg ht]
        exact Or.inl rfl

theorem cardMpnRaw_shape (container : Node) (rs : String) :
    cardMpnRaw container rs = "" ∨
      is_valid_mpn_from_field (cardMpnRaw container rs) rs = true := by
  unfold cardMpnRaw
  cases findNode ddMpnPred container with
  | none => exact cardMpnDtBranch_shape container rs
  | some ddmpn =>
    dsimp only
    by_cases ht : pyGetText "" ddmpn ≠ ""
    · rw [if_pos ht]
      by_cases hv : is_valid_mpn_from_field (pyNorm (pyGetText " " ddmpn)) rs = true
      · rw [if_pos hv]
        exact Or.inr hv
      · rw [if_neg hv]
        exact Or.inl rfl
    · rw [if_neg ht]
      exact cardMpnDtBranch_shape container rs

theorem rsProDistStep_goodMpn (container : Node) (brand mpn rs : String)
    (hg : GoodMpn rs mpn) : GoodMpn rs (rsProDistStep container brand mpn rs) := by
  unfold rsProDistStep
  by_cases h1 : mpn = "" ∧ brand ≠ "" ∧ containsSub (lowerStr brand) "rs" = true ∧
      containsSub (lowerStr brand) "pro" = true
  · rw [if_pos h1]
    by_cases h2 : extract_distrelec_from_container container ≠ "" ∧
        is_valid_mpn_from_field (extract_distrelec_from_container container) rs = true
    · rw [if_pos h2]
      exact Or.inr (Or.inl h2.2)
    · rw [if_neg h2]
      exact hg
  · rw [if_neg h1]
    exact hg

theorem extractCardFields_goodMpn (container : Node) (rs : String) :
    GoodMpn rs (extractCardFields container rs).2 := by
  unfold extractCardFields
  dsimp only
  exact mpn_clean_step_goodMpn _ rs (rsProDistStep_goodMpn container _ _ rs
    (goodMpn_of_shape (cardMpnRaw_shape container rs)))

theorem extractSiblingFields_goodMpn (sib : Node) (rs : String) :
    GoodMpn rs (extractSiblingFields sib rs).2 := by
  unfold extractSiblingFields
  dsimp only
  refine mpn_clean_step_goodMpn _ rs (rsProDistStep_goodMpn sib _ _ rs (goodMpn_of_shape ?_))
  cases findNode ddMpnPred sib with
  | none => exact Or.inl rfl
  | some ddmpn =>
    dsimp only
    by_cases ht : pyGetText "" ddmpn ≠ ""
    · rw [if_pos ht]
      by_cases hv : is_valid_mpn_from_field (pyNorm (pyGetText " " ddmpn)) rs = true
      · rw [if_pos hv]
        exact Or.inr hv
      · rw [if_neg hv]
        exact Or.inl rfl
    · rw [if_neg ht]
      exact Or.inl rfl

theorem walkCard_goodMpn (soup : Node) (rs url : String) :
    ∀ (fuel : Nat) (po : Option (List Nat)) (r : String × String × String × String),
      walkCard soup rs url fuel po = some r → GoodMpn rs r.2.2.1 := by
  intro fuel
  induction fuel with
  | zero =>
    intro po r h
    simp [walkCard] at h
  | succ n ih =>
    intro po r h
    cases po with
    | none => simp [walkCard] at h
    | some p =>
      unfold walkCard at h
      cases hga : getAt p soup with
      | none =>
        rw [hga] at h
        simp at h
      | some container =>
        rw [hga] at h
        dsimp only at h
        by_cases hname : nodeName container ∈ cardNames
        · rw [if_pos hname] at h
          by_cases hok : fieldsOk (extractCardFields container rs).1
              (extractCardFields container rs).2 rs = true
          · rw [if_pos hok] at h
            simp only [Option.some.injEq] at h
            subst h
            exact extractCardFields_goodMpn container rs
          · rw [if_neg hok] at h
            exact ih _ r h
        · rw [if_neg hname] at h
          exact ih _ r h

theorem candLoop_goodMpn (soup : Node) (rs : String) :
    ∀ (cands : List Cand) (r : String × String × String × String),
      candLoop soup rs cands = some r → GoodMpn rs r.2.2.1 := by
  intro cands
  induction cands with
  | nil =>
    intro r h
    simp [candLoop] at h
  | cons c cs ih =>
    intro r h
    unfold candLoop at h
    cases hw : walkCard soup rs c.url 4 (some c.path) with
    | some w =>
      rw [hw] at h
      simp only [Option.some.injEq] at h
      subst h
      exact walkCard_goodMpn soup rs c.url 4 (some c.path) w hw
    | none =>
      rw [hw] at h
      dsimp only at h
      cases hs : nextSibling soup c.path (fun _ => true) with
      | none =>
        rw [hs] at h
        exact ih r h
      | some sib =>
        rw [hs] at h
        dsimp only at h
        by_cases hok : fieldsOk (extractSiblingFields sib rs).1
            (extractSiblingFields sib rs).2 rs = true
        · rw [if_pos hok] at h
          simp only [Option.some.injEq] at h
          subst h
          exact extractSiblingFields_goodMpn sib rs
        · rw [if_neg hok] at h
          exact ih r h

theorem parse_search_goodMpn (soup : Node) (rs : String) :
    GoodMpn rs (parse_search_page_for_fields soup rs).2.2.1 := by
  unfold parse_search_page_for_fields
  cases hc : sortCands (buildCands soup rs) with
  | nil => exact Or.inl rfl
  | cons c0 cs =>
    dsimp only
    cases hcl : candLoop soup rs (c0 :: cs) with
    | none => exact Or.inl rfl
    | some r =>
      rcases r with ⟨u, b, m, st⟩
      dsimp only
      exact candLoop_goodMpn soup rs (c0 :: cs) (u, b, m, st) hcl

theorem extractRawMpn0_goodMpn (rs snippet : String) :
    GoodMpn rs (extractRawMpn0 rs snippet) := by
  unfold extractRawMpn0
  cases hm : (match reSearchStr mpnPattern1Pre snippetCap snippet with
    | some g => some g
    | none => reSearchStr mpnPattern2Pre snippetCap snippet) with
  | none => exact Or.inl rfl
  | some g =>
    dsimp only
    by_cases hv : is_valid_mpn_from_field (pyStrip g) rs = true
    · rw [if_pos hv]
      exact Or.inr (Or.inl hv)
    · rw [if_neg hv]
      rcases sanitize_mpn_shape (pyStrip g) rs with h | h
      · exact Or.inl h
      · exact Or.inr (Or.inr h)

theorem extractRawDist_goodMpn (rs snippet brand mpn0 : String) (hg : GoodMpn rs mpn0) :
    GoodMpn rs (extractRawDist rs snippet brand mpn0) := by
  unfold extractRawDist
  by_cases h1 : mpn0 = "" ∧ ((brand ≠ "" ∧ containsSub (lowerStr brand) "rs" = true ∧
      containsSub (lowerStr brand) "pro" = true) ∨ hasRsPro snippet = true)
  · rw [if_pos h1]
    cases reSearchStr [] distPatternCap snippet with
    | none => exact hg
    | some g =>
      dsimp only
      by_cases hv : is_valid_mpn_from_field (pyStrip g) rs = true
      · rw [if_pos hv]
        exact Or.inr (Or.inl hv)
      · rw [if_neg hv]
        exact hg
  · rw [if_neg h1]
    exact hg

theorem extractRaw_goodMpn (raw rs : String) (m : List Char) :
    GoodMpn rs (extractRaw raw rs m).2 := by
  unfold extractRaw
  dsimp only
  exact extractRawDist_goodMpn rs _ _ _ (extractRawMpn0_goodMpn rs _)

theorem scanLoop_goodMpn (raw rs : String) :
    ∀ (ms : List (List Char)) (r : String × String × String),
      scanLoop raw rs ms = some r → GoodMpn rs r.2.2 := by
  intro ms
  induction ms with
  | nil =>
    intro r h
    simp [scanLoop] at h
  | cons m tl ih =>
    intro r h
    unfold scanLoop at h
    by_cases hc : containsSub ⟨m⟩ rs = true
    · rw [if_pos hc] at h
      dsimp only at h
      by_cases hf : (extractRaw raw rs m).1 ≠ "" ∨ (extractRaw raw rs m).2 ≠ ""
      · rw [if_pos hf] at h
        simp only [Option.some.injEq] at h
        subst h
        exact extractRaw_goodMpn raw rs m
      · rw [if_neg hf] at h
        exact ih r h
    · rw [if_neg hc] at h
      exact ih r h

theorem aggressive_goodMpn (raw rs : String) :
    GoodMpn rs (aggressive_search_scan raw rs).2.2.1 := by
  unfold aggressive_search_scan
  cases findWebP raw with
  | nil => exact Or.inl rfl
  | cons m0 ms =>
    dsimp only
    cases hs : scanLoop raw rs (m0 :: ms) with
    | none => exact Or.inl rfl
    | some r =>
      rcases r with ⟨l, b, mp⟩
      dsimp only
      exact scanLoop_goodMpn raw rs (m0 :: ms) (l, b, mp) hs

theorem aggStep_goodMpn (raw rs : String) : GoodMpn rs (aggStep raw rs).2.2.1 := by
  have hg := aggressive_goodMpn raw rs
  unfold aggStep
  cases hagg : aggressive_search_scan raw rs with
  | mk pl2 r3 =>
    rw [hagg] at hg
    rcases r3 with ⟨b2, m2, st2⟩
    cases pl2 with
    | none => exact Or.inl rfl
    | some v =>
      dsimp only
      by_cases hf : b2 ≠ "" ∨ m2 ≠ ""
      · rw [if_pos hf]
        exact hg
      · rw [if_neg hf]
        exact Or.inl rfl

theorem search_rs_goodMpn (net : Net) (rs : String) :
    GoodMpn rs (search_rs_for_part_combined net rs).2.2.1 := by
  unfold search_rs_for_part_combined
  cases net ("https://fr.rs-online.com/web/c/?searchTerm=" ++ quote_plus rs) with
  | error e => exact Or.inl rfl
  | ok r =>
    dsimp only
    by_cases hsc : r.status_code ≠ 200
    · rw [if_pos hsc]
      exact Or.inl rfl
    · rw [if_neg hsc]
      have hp := parse_search_goodMpn r.text.dom rs
      cases hps : parse_search_page_for_fields r.text.dom rs with
      | mk pl rest =>
        rw [hps] at hp
        rcases rest with ⟨b, m, st⟩
        cases pl with
        | none => exact aggStep_goodMpn r.text.raw rs
        | some product_link =>
          dsimp only
          by_cases hf : b ≠ "" ∨ m ≠ ""
          · rw [if_pos hf]
            exact hp
          · rw [if_neg hf]
            exact aggStep_goodMpn r.text.raw rs

theorem aggStep_none_status (raw rs : String) (h : (aggStep raw rs).1 = none) :
    (aggStep raw rs).2.2.2 = "SEARCH_NO_PRODUCT_LINK" := by
  unfold aggStep at h ⊢
  cases hagg : aggressive_search_scan raw rs with
  | mk pl2 r3 =>
    rw [hagg] at h
    rcases r3 with ⟨b2, m2, st2⟩
    cases pl2 with
    | none => rfl
    | some v =>
      dsimp only at h
      by_cases hf : b2 ≠ "" ∨ m2 ≠ ""
      · rw [if_pos hf] at h
        exact absurd h (by simp)
      · rw [if_neg hf] at h
        exact absurd h (by simp)

theorem search_rs_none_not_success (net : Net) (rs : String)
    (h : (search_rs_for_part_combined net rs).1 = none) :
    isSuccessStatus (search_rs_for_part_combined net rs).2.2.2 = false := by
  unfold search_rs_for_part_combined at h ⊢
  cases hn : net ("https://fr.rs-online.com/web/c/?searchTerm=" ++ quote_plus rs) with
  | error e => exact isSuccess_SEARCH_ERROR e
  | ok r =>
    rw [hn] at h
    dsimp only at h ⊢
    by_cases hsc : r.status_code ≠ 200
    · rw [if_pos hsc]
      exact isSuccess_SEARCH_HTTP _
    · rw [if_neg hsc] at h ⊢
      cases hps : parse_search_page_for_fields r.text.dom rs with
      | mk pl rest =>
        rw [hps] at h
        rcases rest with ⟨b, m, st⟩
        cases pl with
        | none =>
          have hst := aggStep_none_status r.text.raw rs h
          rw [hst]
          decide
        | some product_link =>
          dsimp only at h ⊢
          by_cases hf : b ≠ "" ∨ m ≠ ""
          · rw [if_pos hf] at h
            exact absurd h (by simp)
          · rw [if_neg hf] at h ⊢
            have hst := aggStep_none_status r.text.raw rs h
            rw [hst]
            decide

theorem fetch_search_phase_ok (net : Net) (rs : String)
    (h : isSuccessStatus (fetch_search_phase net rs).2.2.2 = true) :
    looks_like_brand (fetch_search_phase net rs).2.1 = true ∨
    is_valid_mpn_from_field (fetch_search_phase net rs).1 rs = true ∨
    heuristic_mpn_candidate (fetch_search_phase net rs).1 rs = true := by
  have hgood := search_rs_goodMpn net rs
  unfold fetch_search_phase at h ⊢
  cases hsr : search_rs_for_part_combined net rs with
  | mk pl rest =>
    rw [hsr] at h hgood
    rcases rest with ⟨b, m, st⟩
    cases pl with
    | none =>
      have hnone : (search_rs_for_part_combined net rs).1 = none := by
        rw [hsr]
      have hns := search_rs_none_not_success net rs hnone
      rw [hsr] at hns
      dsimp only at h hns
      rw [hns] at h
      exact absurd h (by simp)
    | some product_link =>
      dsimp only at h ⊢
      by_cases hok : fieldsOk b m rs = true
      · rw [if_pos hok] at h ⊢
        dsimp only
        rcases fieldsOk_elim b m rs hok with hb | hm
        · exact Or.inl hb
        · rcases mpn_clean_step_valid m rs hgood hm with h1 | h1
          · exact Or.inr (Or.inl h1)
          · exact Or.inr (Or.inr h1)
      · rw [if_neg hok] at h ⊢
        cases hn2 : net product_link with
        | error e =>
          rw [hn2] at h
          dsimp only at h
          rw [isSuccess_ERROR_FETCH e] at h
          exact absurd h (by simp)
        | ok r2 =>
          rw [hn2] at h
          dsimp only at h ⊢
          by_cases hsc : r2.status_code ≠ 200
          · rw [if_pos hsc] at h
            rw [isSuccess_PRODUCT_HTTP _] at h
            exact absurd h (by simp)
          · rw [if_neg hsc] at h ⊢
            by_cases hok2 : fieldsOk (parse_product_page_for_fields r2.text.dom rs).2
                (parse_product_page_for_fields r2.text.dom rs).1 rs = true
            · rw [if_pos hok2] at h ⊢
              dsimp only
              rcases fieldsOk_elim _ _ rs hok2 with hb | hm
              · exact Or.inl hb
              · exact Or.inr hm
            · rw [if_neg hok2] at h
              dsimp only at h
              exact absurd h (by decide)

/-- C2: whenever fetch_rs_info returns a status beginning with OK( , the
returned Brand passes looks_like_brand or the returned Manufacturer_PN
passes the strict validation or the loose heuristic against the RS_PN,
for every network behaviour and every content of the fetched pages. -/
theorem success_status_has_valid_field (net : Net) (rs_pn : String)
    (h : isSuccessStatus (fetch_rs_info net rs_pn).2.2.2 = true) :
    looks_like_brand (fetch_rs_info net rs_pn).2.1 = true ∨
    is_valid_mpn_from_field (fetch_rs_info net rs_pn).1 rs_pn = true ∨
    heuristic_mpn_candidate (fetch_rs_info net rs_pn).1 rs_pn = true := by
  unfold fetch_rs_info at h ⊢
  cases hn : net ("https://fr.rs-online.com/web/p/" ++ rs_pn ++ "/") with
  | error e =>
    rw [hn] at h
    dsimp only at h
    rw [isSuccess_ERROR_DIRECT e] at h
    exact absurd h (by simp)
  | ok r =>
    rw [hn] at h
    dsimp only at h ⊢
    by_cases hsc : r.status_code = 200
    · rw [if_pos hsc] at h ⊢
      by_cases hok : fieldsOk (parse_product_page_for_fields r.text.dom rs_pn).2
          (parse_product_page_for_fields r.text.dom rs_pn).1 rs_pn = true
      · rw [if_pos hok] at h ⊢
        dsimp only
        rcases fieldsOk_elim _ _ rs_pn hok with hb | hm
        · exact Or.inl hb
        · exact Or.inr hm
      · rw [if_neg hok] at h ⊢
        exact fetch_search_phase_ok net rs_pn h
    · rw [if_neg hsc] at h ⊢
      exact fetch_search_phase_ok net rs_pn h

/-- Witness for C2 at a direct product page carrying the brand RS PRO. -/
theorem success_status_witness :
    isSuccessStatus (fetch_rs_info witnessNet "123").2.2.2 = true ∧
    (looks_like_brand (fetch_rs_info witnessNet "123").2.1 = true ∨
     is_valid_mpn_from_field (fetch_rs_info witnessNet "123").1 "123" = true ∨
     heuristic_mpn_candidate (fetch_rs_info witnessNet "123").1 "123" = true) :=
  ⟨by decide, success_status_has_valid_field witnessNet "123" (by decide)⟩

/-- Witness for C4 (amended) at a concrete nodup input. -/
theorem resume_skips_done_witness :
    main okLookup ["A", "B"] (main okLookup ["A", "B"] []) =
      main okLookup ["A", "B"] [] ∧
    ((main okLookup ["A", "B"] (main okLookup ["A", "B"] [])).map
      (fun r => r.rs_pn)).Nodup := by
  have h := resume_skips_done okLookup okLookup ["A", "B"] []
  exact ⟨h.2.1, h.2.2 rfl (by decide)⟩

end RsFinder
